import Mathlib

/-!
Shallow embedding of `src/utils/deduplicate.py` (class `Duplication`).

Tables are modelled as an ordered list of rows; a row is a pair of a row
identifier (the pandas index label) and the list of cell values, one per
column, all values being strings (the repository's `prepare_patient`
fills missing values with the empty string before deduplication runs).

The pluggable similarity metric (`jellyfish.jaro_winkler_similarity` by
default) is an external capability and is modelled as an arbitrary
function `String → String → ℚ`.
-/

structure Table where
  cols : List String
  rows : List (Nat × List String)
deriving DecidableEq, Repr

/-- Cell access `df.loc[row, col]`: position of the column name, then the
cell at that position.  (pandas raises on a missing column; that path is
unreachable in the pipeline and is given the default value "".) -/
def getVal (cols : List String) (cells : List String) (c : String) : String :=
  match cols.findIdx? (· == c) with
  | some i => cells.getD i ""
  | none => ""

/-- The column `df[c]` as a list of values, in row order. -/
def colValues (t : Table) (c : String) : List String :=
  t.rows.map (fun r => getVal t.cols r.2 c)

/-- First-occurrence deduplication, as pandas `Series.unique` does. -/
def uniqueInOrder (l : List String) : List String :=
  l.foldl (fun acc x => if x ∈ acc then acc else acc ++ [x]) []

/-- `df[c][df[c].duplicated(False)].unique()`: the values of column `c`
appearing on two or more rows, one occurrence each, in first-appearance
order. -/
def duplicatedValues (t : Table) (c : String) : List String :=
  let vals := colValues t c
  uniqueInOrder (vals.filter (fun v => decide (2 ≤ vals.count v)))

/-- `df_patient[df_patient.patient_id.duplicated(False)].index`: the
identifiers of every row whose `patient_id` value occurs on two or more
rows. -/
def duplicated_pid_index (t : Table) : List Nat :=
  let pids := colValues t "patient_id"
  (t.rows.filter
    (fun r => decide (2 ≤ pids.count (getVal t.cols r.2 "patient_id")))).map (·.1)

/-- Insert into a sorted list of naturals, keeping it sorted. -/
def insertSorted (i : Nat) : List Nat → List Nat
  | [] => [i]
  | j :: js => if i ≤ j then i :: j :: js else j :: insertSorted i js

/-- Ascending insertion sort (structurally recursive). -/
def sortNat : List Nat → List Nat
  | [] => []
  | i :: is => insertSorted i (sortNat is)

/-- `np.setdiff1d(ids, dups)`: the sorted unique identifiers of `ids`
that are not in `dups`. -/
def setdiff1d (ids : List Nat) (dups : List Nat) : List Nat :=
  sortNat ((ids.filter (fun i => decide (i ∉ dups))).dedup)

/-- `df.loc[ids]` for a list of labels: for each label in order, every
row carrying that label, in original row order. -/
def locRows (t : Table) (ids : List Nat) : List (Nat × List String) :=
  ids.flatMap (fun i => t.rows.filter (fun r => r.1 == i))

/-- `Duplication.__df_deduplicate__`: drop the rows whose identifier is in
`indice_duplicates` via `df.loc[np.setdiff1d(df.index, dups)]`.  (The
`print` of the removal count is observability only and is not modelled.) -/
def df_deduplicate (t : Table) (indice_duplicates : List Nat) : Table :=
  { cols := t.cols
    rows := locRows t (setdiff1d (t.rows.map (·.1)) indice_duplicates) }

/-- The mutable state of a `Duplication` object: the constructor
parameters, all of which are stored on `self` and some of which the
methods reassign. -/
structure Duplication where
  variable_testing : Option (List String)
  var_threshold : Option (List String)
  var_similarity : Option (List String)
  confidence : ℚ
  threshold : ℚ
  df_pcr : Option Table
  metric : String → String → ℚ
  remove_dupli_pi : Bool
  removed : Option ℚ

/-- `cluster.patient_id.isin(df_pcr.patient_id)` restricted to its true
positions: the identifiers of the cluster rows whose `patient_id` occurs
in the pcr table, in cluster order. -/
def tested_ids (cluster : Table) (dfp : Table) : List Nat :=
  ((cluster.rows.map
      (fun r => (r.1, decide (getVal cluster.cols r.2 "patient_id" ∈ colValues dfp "patient_id")))).filter
    (·.2)).map (·.1)

/-- `Duplication.__find_positive__`: over the pcr rows whose `patient_id`
belongs to a tested cluster row, the flag `pcr == "P"`, keyed by the pcr
row identifier. -/
def find_positive (index_tested : List Nat) (df_pcr : Table) (df_patient : Table) :
    List (Nat × Bool) :=
  let testedPids :=
    (df_patient.rows.filter (fun r => decide (r.1 ∈ index_tested))).map
      (fun r => getVal df_patient.cols r.2 "patient_id")
  (df_pcr.rows.filter (fun r => decide (getVal df_pcr.cols r.2 "patient_id" ∈ testedPids))).map
    (fun r => (r.1, getVal df_pcr.cols r.2 "pcr" == "P"))

/-- `df_pcr.patient_id[is_positive.index[is_positive]]`: the
`patient_id`s of the pcr rows flagged positive. -/
def positive_pids (df_pcr : Table) (is_positive : List (Nat × Bool)) : List String :=
  let posIds := (is_positive.filter (·.2)).map (·.1)
  (df_pcr.rows.filter (fun r => decide (r.1 ∈ posIds))).map
    (fun r => getVal df_pcr.cols r.2 "patient_id")

/-- `Duplication.__get_positive__`: the identifiers of every row of the
full patient table whose `patient_id` is among the positive pcr rows'
`patient_id`s, in patient-table row order. -/
def get_positive (df_patient : Table) (df_pcr : Table) (is_positive : List (Nat × Bool)) :
    List Nat :=
  (df_patient.rows.filter
    (fun r => decide (getVal df_patient.cols r.2 "patient_id" ∈ positive_pids df_pcr is_positive))).map
    (·.1)

/-- `cluster.index[0]` (unreachable on an empty cluster in the pipeline,
where every cluster has at least two rows; defaulted to 0). -/
def firstIdx (cluster : Table) : Nat :=
  (cluster.rows.head?.map (·.1)).getD 0

/-- `df_patient[df_patient[variable] == dupli]`: the cluster of rows
sharing the value `dupli` of the blocking column. -/
def cluster_of (col : String) (df_patient : Table) (dupli : String) : Table :=
  { cols := df_patient.cols
    rows := df_patient.rows.filter (fun r => getVal df_patient.cols r.2 col == dupli) }

/-- `Duplication.__make_cluster__`: the rows sharing the value `dupli` of
the blocking column, and the chosen reference row identifier. -/
def make_cluster (col : String) (df_patient : Table) (df_pcr : Option Table)
    (dupli : String) : Table × Nat :=
  let cluster := cluster_of col df_patient dupli
  match df_pcr with
  | none => (cluster, firstIdx cluster)
  | some dfp =>
    -- `if any(is_tested)` / `h_many_id == 1`, phrased on the list of
    -- identifiers of the tested rows.
    match tested_ids cluster dfp with
    | [] => (cluster, firstIdx cluster)
    | [i] => (cluster, i)
    | i :: _ :: _ =>
      let is_positive := find_positive (tested_ids cluster dfp) dfp df_patient
      if is_positive.any (·.2) then
        let index_positive := get_positive df_patient dfp is_positive
        -- `index_positive[np.isin(index_positive, index_tested)][0]`;
        -- nonempty whenever some tested row is positive, defaulted to 0.
        (cluster, (index_positive.filter (fun x => decide (x ∈ tested_ids cluster dfp))).headD 0)
      else (cluster, i)

/-- The cells of `cluster.loc[ref_index]` (first row carrying the label). -/
def refCells (cluster : Table) (ref_index : Nat) : List String :=
  ((cluster.rows.find? (fun r => r.1 == ref_index)).map (·.2)).getD []

/-- `Duplication.__matching_cluster__`: for every cluster row other than
the reference, and for every column, `metric(value, ref_value) >
confidence` when the column is a similarity variable and plain equality
otherwise. -/
def matching_cluster (cluster : Table) (ref_index : Nat) (var_similarity : List String)
    (metric : String → String → ℚ) (confidence : ℚ) :
    List (Nat × List (String × Bool)) :=
  (cluster.rows.filter (fun r => r.1 != ref_index)).map (fun r =>
    (r.1, cluster.cols.map (fun v =>
      (v,
        if v ∈ var_similarity then
          decide (confidence < metric (getVal cluster.cols r.2 v)
            (getVal cluster.cols (refCells cluster ref_index) v))
        else
          getVal cluster.cols r.2 v == getVal cluster.cols (refCells cluster ref_index) v))))

/-- Boolean cell of the match table at a named column (missing column
defaults to `false`; unreachable, pandas would raise). -/
def lookupBool (cells : List (String × Bool)) (v : String) : Bool :=
  ((cells.find? (·.1 == v)).map (·.2)).getD false

/-- `Duplication.__calculate_matching__`:
`match[var_threshold].sum(axis=1) / len(var_threshold)` per row.  With an
empty `var_threshold` the Python expression is the float division `0 / 0`,
which pandas evaluates to NaN without raising; NaN is modelled as `none`
(every ordered comparison against NaN is false). -/
def calculate_matching (mt : List (Nat × List (String × Bool)))
    (var_threshold : List String) : List (Nat × Option ℚ) :=
  mt.map (fun r =>
    (r.1,
      if var_threshold.isEmpty then none
      else some (mkRat ((var_threshold.filter (fun v => lookupBool r.2 v)).length : Int)
        var_threshold.length)))

/-- `cm >= self.threshold` on a possibly-NaN ratio: NaN compares false. -/
def ratioGE (r : Option ℚ) (threshold : ℚ) : Bool :=
  match r with
  | none => false
  | some q => decide (threshold ≤ q)

/-- `if self.var_similarity is None: self.var_similarity =
df_patient.columns` — the lazy default assignment to `self` made inside
the per-cluster loop of `__get_indice_duplicated__`. -/
def lazy_sim (s : Duplication) (df_patient : Table) : Duplication :=
  match s.var_similarity with
  | none => { s with var_similarity := some df_patient.cols }
  | some _ => s

/-- `if self.var_threshold is None: self.var_threshold =
df_patient.columns` — the lazy default assignment to `self` made inside
the per-cluster loop of `__get_indice_duplicated__`. -/
def lazy_thr (s : Duplication) (df_patient : Table) : Duplication :=
  match s.var_threshold with
  | none => { s with var_threshold := some df_patient.cols }
  | some _ => s

/-- The body of one iteration of the `for dupli in all_dupli` loop of
`__get_indice_duplicated__`: build the cluster, match against the
reference, compute the ratios (with the lazily defaulted column subsets)
and return the identifiers classified as duplicates
(`duplicate.index[duplicate]` where `duplicate = cm >= self.threshold`). -/
def cluster_duplicate_ids (s : Duplication) (df_patient : Table) (df_pcr : Option Table)
    (col : String) (dupli : String) : List Nat :=
  let cr := make_cluster col df_patient df_pcr dupli
  let s1 := lazy_sim s df_patient
  let mt := matching_cluster cr.1 cr.2 (s1.var_similarity.getD []) s1.metric s1.confidence
  let s2 := lazy_thr s1 df_patient
  let cm := calculate_matching mt (s2.var_threshold.getD [])
  (cm.filter (fun p => ratioGE p.2 s2.threshold)).map (·.1)

/-- `Duplication.__get_indice_duplicated__`: loop over the duplicated
values of the blocking column; per value run `cluster_duplicate_ids`
(which performs the lazy defaulting of `var_similarity` and
`var_threshold`, assignments to `self` kept in the returned state) and
extend the accumulated duplicate identifiers. -/
def get_indice_duplicated (s : Duplication) (df_patient : Table) (df_pcr : Option Table)
    (col : String) : List String → Duplication × List Nat
  | [] => (s, [])
  | dupli :: rest =>
    let dup_ids := cluster_duplicate_ids s df_patient df_pcr col dupli
    let pr := get_indice_duplicated (lazy_thr (lazy_sim s df_patient) df_patient)
      df_patient df_pcr col rest
    (pr.1, dup_ids ++ pr.2)

/-- One iteration of the `for variable in self.variable_testing` loop of
`detect_duplicates`: find the duplicated values, collect the duplicate
identifiers, and drop them. -/
def blockingPass (s : Duplication) (df : Table) (col : String) : Duplication × Table :=
  let all_unique := duplicatedValues df col
  let pr := get_indice_duplicated s df s.df_pcr col all_unique
  (pr.1, df_deduplicate df pr.2)

/-- The whole testing-variable loop, one `blockingPass` per variable,
each pass consuming the previous pass's surviving table. -/
def runPasses (s : Duplication) (df : Table) : List String → Duplication × Table
  | [] => (s, df)
  | c :: cs =>
    let p := blockingPass s df c
    runPasses p.1 p.2 cs

/-- The final `remove_dupli_pi` block: drop every row whose `patient_id`
is duplicated (`duplicated(False)` marks all occurrences, the first one
included). -/
def finalPiPass (df : Table) : Table :=
  df_deduplicate df (duplicated_pid_index df)

/-- `round(q, 2)` as used for the `removed` attribute (Python's
float rounding at exact two-decimal ties is banker's; no claim depends on
tie values). -/
def roundTo2 (q : ℚ) : ℚ := ((round (q * 100) : ℤ) : ℚ) / 100

/-- `if self.variable_testing is None: self.variable_testing =
df_patient.columns` — the defaulting assignment to `self` made at the
start of `detect_duplicates`. -/
def resolve_testing (s : Duplication) (df_patient : Table) : Duplication :=
  match s.variable_testing with
  | none => { s with variable_testing := some df_patient.cols }
  | some _ => s

/-- `Duplication.detect_duplicates`: default `variable_testing` from the
input columns (assigned to `self`), run one pass per testing variable,
optionally run the final `patient_id` pass, then set
`self.removed = round(1 - after/before, 2)`.  On an input with zero rows
that last line divides by zero and the call raises `ZeroDivisionError`,
modelled as `none` (the state mutations made before the raise are kept). -/
def detect_duplicates (s : Duplication) (df_patient : Table) : Duplication × Option Table :=
  let init := df_patient.rows.length
  let s1 := resolve_testing s df_patient
  let p := runPasses s1 df_patient (s1.variable_testing.getD [])
  let t3 :=
    if p.1.remove_dupli_pi then
      if "patient_id" ∈ p.2.cols then finalPiPass p.2
      else p.2  -- `print('No patient id column')`: observability only
    else p.2
  if init = 0 then (p.1, none)
  else
    ({ p.1 with removed := some (roundTo2 (1 - (t3.rows.length : ℚ) / (init : ℚ))) },
      some t3)

/-- Modelled from the spec (§4.2, reference selection with two or more
linked rows and a positive result): "among entities that are both linked
and positive, pick the row identifier corresponding to the first such
entity in Auxiliary Table order".  Used only to compare the spec's
selection rule with `make_cluster`. -/
def aux_order_positive_ref (cluster : Table) (df_pcr : Table) : Option Nat :=
  let linkedPids :=
    (cluster.rows.map (fun r => getVal cluster.cols r.2 "patient_id")).filter
      (fun p => decide (p ∈ colValues df_pcr "patient_id"))
  match df_pcr.rows.find? (fun r =>
      decide (getVal df_pcr.cols r.2 "patient_id" ∈ linkedPids) &&
      (getVal df_pcr.cols r.2 "pcr" == "P")) with
  | some r =>
    (cluster.rows.find? (fun q =>
      getVal cluster.cols q.2 "patient_id" == getVal df_pcr.cols r.2 "patient_id")).map (·.1)
  | none => none

/-! ### Basic lemmas about the removal step -/

theorem mem_insertSorted {i a : Nat} {l : List Nat} :
    a ∈ insertSorted i l ↔ a = i ∨ a ∈ l := by
  induction l with
  | nil => simp [insertSorted]
  | cons j js ih =>
    simp only [insertSorted]
    split
    · simp [List.mem_cons]
    · simp only [List.mem_cons, ih]
      tauto

theorem mem_sortNat {a : Nat} {l : List Nat} : a ∈ sortNat l ↔ a ∈ l := by
  induction l with
  | nil => simp [sortNat]
  | cons i is ih => simp [sortNat, mem_insertSorted, ih]

theorem sorted_insertSorted {i : Nat} {l : List Nat}
    (h : l.Pairwise (· ≤ ·)) : (insertSorted i l).Pairwise (· ≤ ·) := by
  induction l with
  | nil => simp [insertSorted]
  | cons j js ih =>
    rw [List.pairwise_cons] at h
    obtain ⟨hj, hjs⟩ := h
    simp only [insertSorted]
    split
    · rename_i hij
      refine List.pairwise_cons.2 ⟨?_, List.pairwise_cons.2 ⟨hj, hjs⟩⟩
      intro b hb
      rcases List.mem_cons.1 hb with rfl | hb
      · exact hij
      · exact le_trans hij (hj b hb)
    · rename_i hij
      refine List.pairwise_cons.2 ⟨?_, ih hjs⟩
      intro b hb
      rcases mem_insertSorted.1 hb with rfl | hb
      · exact le_of_not_le hij
      · exact hj b hb

theorem sorted_sortNat (l : List Nat) : (sortNat l).Pairwise (· ≤ ·) := by
  induction l with
  | nil => simp [sortNat]
  | cons i is ih => exact sorted_insertSorted ih

theorem nodup_insertSorted {i : Nat} {l : List Nat} (h : l.Nodup) (hi : i ∉ l) :
    (insertSorted i l).Nodup := by
  induction l with
  | nil => simp [insertSorted]
  | cons j js ih =>
    rw [List.nodup_cons] at h
    obtain ⟨hj, hjs⟩ := h
    simp only [insertSorted]
    split
    · exact List.nodup_cons.2 ⟨hi, List.nodup_cons.2 ⟨hj, hjs⟩⟩
    · refine List.nodup_cons.2 ⟨?_, ih hjs (fun hmem => hi (List.mem_cons_of_mem _ hmem))⟩
      intro hmem
      rcases mem_insertSorted.1 hmem with rfl | hmem
      · exact hi (List.mem_cons_self _ _)
      · exact hj hmem

theorem nodup_sortNat {l : List Nat} (h : l.Nodup) : (sortNat l).Nodup := by
  induction l with
  | nil => simp [sortNat]
  | cons i is ih =>
    rw [List.nodup_cons] at h
    exact nodup_insertSorted (ih h.2) (fun hmem => h.1 (mem_sortNat.1 hmem))

theorem length_insertSorted (i : Nat) (l : List Nat) :
    (insertSorted i l).length = l.length + 1 := by
  induction l with
  | nil => simp [insertSorted]
  | cons j js ih =>
    simp only [insertSorted]
    split
    · simp
    · simp [ih]

theorem length_sortNat (l : List Nat) : (sortNat l).length = l.length := by
  induction l with
  | nil => simp [sortNat]
  | cons i is ih => simp [sortNat, length_insertSorted, ih]

theorem mem_setdiff1d {ids dups : List Nat} {i : Nat} :
    i ∈ setdiff1d ids dups ↔ i ∈ ids ∧ i ∉ dups := by
  simp [setdiff1d, mem_sortNat, List.mem_dedup, List.mem_filter]

theorem sorted_setdiff1d (ids dups : List Nat) :
    (setdiff1d ids dups).Pairwise (· ≤ ·) :=
  sorted_sortNat _

theorem nodup_setdiff1d (ids dups : List Nat) : (setdiff1d ids dups).Nodup :=
  nodup_sortNat (List.nodup_dedup _)

theorem length_setdiff1d_le (ids dups : List Nat) :
    (setdiff1d ids dups).length ≤ ids.length := by
  rw [setdiff1d, length_sortNat]
  exact le_trans (List.Sublist.length_le (List.dedup_sublist _)) (List.length_filter_le _ _)

theorem mem_locRows {t : Table} {ids : List Nat} {r : Nat × List String} :
    r ∈ locRows t ids ↔ r ∈ t.rows ∧ r.1 ∈ ids := by
  simp only [locRows, List.mem_flatMap, List.mem_filter, beq_iff_eq]
  constructor
  · rintro ⟨i, hi, hr, rfl⟩
    exact ⟨hr, hi⟩
  · rintro ⟨hr, hi⟩
    exact ⟨r.1, hi, hr, rfl⟩

theorem mem_df_deduplicate {t : Table} {d : List Nat} {r : Nat × List String} :
    r ∈ (df_deduplicate t d).rows ↔ r ∈ t.rows ∧ r.1 ∉ d := by
  rw [df_deduplicate]
  simp only [mem_locRows, mem_setdiff1d]
  constructor
  · rintro ⟨hr, _, hnd⟩
    exact ⟨hr, hnd⟩
  · rintro ⟨hr, hnd⟩
    exact ⟨hr, List.mem_map_of_mem _ hr, hnd⟩

theorem cols_df_deduplicate (t : Table) (d : List Nat) :
    (df_deduplicate t d).cols = t.cols := rfl

theorem filter_fst_eq_singleton {rows : List (Nat × List String)} {i : Nat}
    (hnd : (rows.map (·.1)).Nodup) (hi : i ∈ rows.map (·.1)) :
    ∃ r, rows.filter (fun x => x.1 == i) = [r] ∧ r.1 = i ∧ r ∈ rows := by
  induction rows with
  | nil => simp at hi
  | cons a as ih =>
    rw [List.map_cons, List.nodup_cons] at hnd
    rcases List.mem_cons.1 hi with hai | hi'
    · refine ⟨a, ?_, hai.symm, List.mem_cons_self _ _⟩
      rw [List.filter_cons]
      have ha : (a.1 == i) = true := by simp [hai]
      rw [if_pos ha]
      have : as.filter (fun x => x.1 == i) = [] := by
        rw [List.filter_eq_nil_iff]
        intro b hb hbeq
        rw [beq_iff_eq] at hbeq
        have hai' : i = a.1 := hai
        have hbm : b.1 ∈ List.map (fun x => x.1) as := List.mem_map_of_mem _ hb
        rw [hbeq, hai'] at hbm
        exact hnd.1 hbm
      rw [this]
    · obtain ⟨r, hr, hri, hrm⟩ := ih hnd.2 hi'
      refine ⟨r, ?_, hri, List.mem_cons_of_mem _ hrm⟩
      rw [List.filter_cons]
      have ha : ¬ (a.1 == i) = true := by
        rw [beq_iff_eq]
        intro hai
        obtain ⟨b, hb, hbi⟩ := List.mem_map.1 hi'
        have hbi' : b.1 = i := hbi
        have hbm : b.1 ∈ List.map (fun x => x.1) as := List.mem_map_of_mem _ hb
        rw [hbi', ← hai] at hbm
        exact hnd.1 hbm
      rw [if_neg ha, hr]

theorem locRows_map_fst {t : Table} (hnd : (t.rows.map (·.1)).Nodup) :
    ∀ {ks : List Nat}, (∀ i ∈ ks, i ∈ t.rows.map (·.1)) →
      (locRows t ks).map (·.1) = ks := by
  intro ks
  induction ks with
  | nil => intro; simp [locRows]
  | cons k ks ih =>
    intro hsub
    obtain ⟨r, hr, hri, _⟩ := filter_fst_eq_singleton hnd (hsub k (List.mem_cons_self _ _))
    simp only [locRows, List.flatMap_cons] at *
    rw [List.map_append, hr]
    simp only [List.map_cons, List.map_nil, hri]
    rw [ih (fun i hi => hsub i (List.mem_cons_of_mem _ hi))]
    rfl

theorem locRows_length {t : Table} (hnd : (t.rows.map (·.1)).Nodup)
    {ks : List Nat} (hsub : ∀ i ∈ ks, i ∈ t.rows.map (·.1)) :
    (locRows t ks).length = ks.length := by
  calc (locRows t ks).length = ((locRows t ks).map (·.1)).length :=
        (List.length_map _ _).symm
    _ = ks.length := by rw [locRows_map_fst hnd hsub]

theorem df_deduplicate_length_le {t : Table} (d : List Nat)
    (hnd : (t.rows.map (·.1)).Nodup) :
    ((df_deduplicate t d).rows).length ≤ t.rows.length := by
  rw [df_deduplicate]
  rw [locRows_length hnd (fun i hi => (mem_setdiff1d.1 hi).1)]
  calc (setdiff1d (t.rows.map (·.1)) d).length
      ≤ (t.rows.map (·.1)).length := length_setdiff1d_le _ _
    _ = t.rows.length := List.length_map _ _

theorem df_deduplicate_sorted {t : Table} (d : List Nat)
    (hnd : (t.rows.map (·.1)).Nodup) :
    (((df_deduplicate t d).rows).map (·.1)).Pairwise (· ≤ ·) := by
  rw [df_deduplicate]
  rw [locRows_map_fst hnd (fun i hi => (mem_setdiff1d.1 hi).1)]
  exact sorted_setdiff1d _ _

/-! ### Pipeline-level lemmas -/

theorem blockingPass_snd (s : Duplication) (df : Table) (c : String) :
    (blockingPass s df c).2 =
      df_deduplicate df (get_indice_duplicated s df s.df_pcr c (duplicatedValues df c)).2 :=
  rfl

theorem finalPiPass_subset {df : Table} {r : Nat × List String}
    (h : r ∈ (finalPiPass df).rows) : r ∈ df.rows :=
  (mem_df_deduplicate.1 h).1

theorem runPasses_subset : ∀ (cs : List String) (s : Duplication) (df : Table)
    (r : Nat × List String), r ∈ ((runPasses s df cs).2).rows → r ∈ df.rows := by
  intro cs
  induction cs with
  | nil => intro s df r h; exact h
  | cons c cs ih =>
    intro s df r h
    rw [runPasses] at h
    have h1 := ih _ _ _ h
    rw [blockingPass_snd] at h1
    exact (mem_df_deduplicate.1 h1).1

theorem locRows_rows_nil {t : Table} (h : t.rows = []) (ks : List Nat) :
    locRows t ks = [] := by
  rw [locRows, h]
  induction ks with
  | nil => rfl
  | cons k ks ih => rw [List.flatMap_cons, ih, List.filter_nil, List.nil_append]

theorem runPasses_rows_nil : ∀ (cs : List String) (s : Duplication) (df : Table),
    df.rows = [] → ((runPasses s df cs).2).rows = [] := by
  intro cs
  induction cs with
  | nil => intro s df h; exact h
  | cons c cs ih =>
    intro s df h
    rw [runPasses]
    refine ih _ _ ?_
    rw [blockingPass_snd, df_deduplicate]
    exact locRows_rows_nil h _

theorem detect_duplicates_none_of_nil (s : Duplication) (t : Table) (h : t.rows = []) :
    (detect_duplicates s t).2 = none := by
  rw [detect_duplicates]
  simp [h]

theorem lazy_sim_var_threshold (s : Duplication) (df : Table) :
    (lazy_sim s df).var_threshold = s.var_threshold := by
  cases hs : s.var_similarity <;> simp [lazy_sim, hs]

theorem lazy_thr_var_threshold_some {s : Duplication} {df : Table} {v : List String}
    (h : s.var_threshold = some v) : (lazy_thr s df).var_threshold = some v := by
  simp [lazy_thr, h]

theorem lazy_thr_var_threshold_none {s : Duplication} {df : Table}
    (h : s.var_threshold = none) : (lazy_thr s df).var_threshold = some df.cols := by
  simp [lazy_thr, h]

theorem gid_var_threshold_some : ∀ (ds : List String) {s : Duplication} (df : Table)
    (pcr : Option Table) (c : String) {v : List String}, s.var_threshold = some v →
    (get_indice_duplicated s df pcr c ds).1.var_threshold = some v := by
  intro ds
  induction ds with
  | nil => intro s df pcr c v h; exact h
  | cons d ds ih =>
    intro s df pcr c v h
    rw [get_indice_duplicated]
    refine ih _ _ _ ?_
    refine lazy_thr_var_threshold_some ?_
    rw [lazy_sim_var_threshold]
    exact h

theorem gid_var_threshold_assigned (d : String) (ds : List String) {s : Duplication}
    (df : Table) (pcr : Option Table) (c : String) (h : s.var_threshold = none) :
    (get_indice_duplicated s df pcr c (d :: ds)).1.var_threshold = some df.cols := by
  rw [get_indice_duplicated]
  refine gid_var_threshold_some ds _ _ _ ?_
  refine lazy_thr_var_threshold_none ?_
  rw [lazy_sim_var_threshold]
  exact h

theorem runPasses_var_threshold_some : ∀ (cs : List String) {s : Duplication} (df : Table)
    {v : List String}, s.var_threshold = some v →
    (runPasses s df cs).1.var_threshold = some v := by
  intro cs
  induction cs with
  | nil => intro s df v h; exact h
  | cons c cs ih =>
    intro s df v h
    rw [runPasses]
    exact ih _ (gid_var_threshold_some _ _ _ _ h)

theorem resolve_testing_var_threshold (s : Duplication) (t : Table) :
    (resolve_testing s t).var_threshold = s.var_threshold := by
  cases hs : s.variable_testing <;> simp [resolve_testing, hs]

theorem detect_var_threshold_some {s : Duplication} (t : Table) {v : List String}
    (h : s.var_threshold = some v) :
    (detect_duplicates s t).1.var_threshold = some v := by
  have hs1 : (resolve_testing s t).var_threshold = some v := by
    rw [resolve_testing_var_threshold]
    exact h
  simp only [detect_duplicates]
  split
  · exact runPasses_var_threshold_some _ _ hs1
  · simpa using runPasses_var_threshold_some _ _ hs1

theorem detect_duplicates_some_subset {s : Duplication} {t t' : Table}
    (h : (detect_duplicates s t).2 = some t') :
    ∀ r ∈ t'.rows, r ∈ t.rows := by
  intro r hr
  simp only [detect_duplicates] at h
  split at h
  · simp at h
  · rw [Option.some_inj] at h
    subst h
    split at hr
    · split at hr
      · exact runPasses_subset _ _ _ _ (finalPiPass_subset hr)
      · exact runPasses_subset _ _ _ _ hr
    · exact runPasses_subset _ _ _ _ hr

theorem calculate_matching_nil_threshold (mt : List (Nat × List (String × Bool))) :
    calculate_matching mt [] = mt.map (fun r => (r.1, none)) := by
  simp [calculate_matching]

theorem cluster_duplicate_ids_empty_threshold {s : Duplication} {df : Table}
    {pcr : Option Table} {c d : String} (h : s.var_threshold = some []) :
    cluster_duplicate_ids s df pcr c d = [] := by
  have h2 : (lazy_thr (lazy_sim s df) df).var_threshold = some [] := by
    refine lazy_thr_var_threshold_some ?_
    rw [lazy_sim_var_threshold]
    exact h
  simp only [cluster_duplicate_ids, h2, Option.getD_some, calculate_matching_nil_threshold]
  rw [List.map_eq_nil_iff, List.filter_eq_nil_iff]
  intro p hp
  obtain ⟨r, _, rfl⟩ := List.mem_map.1 hp
  simp [ratioGE]

theorem gid_empty_threshold : ∀ (ds : List String) {s : Duplication} (df : Table)
    (pcr : Option Table) (c : String), s.var_threshold = some [] →
    (get_indice_duplicated s df pcr c ds).2 = [] := by
  intro ds
  induction ds with
  | nil => intro s df pcr c h; rfl
  | cons d ds ih =>
    intro s df pcr c h
    rw [get_indice_duplicated]
    have h2 : (lazy_thr (lazy_sim s df) df).var_threshold = some [] := by
      refine lazy_thr_var_threshold_some ?_
      rw [lazy_sim_var_threshold]
      exact h
    simp only [cluster_duplicate_ids_empty_threshold h, List.nil_append]
    exact ih _ _ _ h2

/-! ### Claims -/

/-- C7: for every blocking-key pass and every cluster in it, the row
identifier chosen as that cluster's reference record is never among the
duplicate identifiers contributed by that cluster (the match table is
built only from the non-reference rows), so the reference record always
survives its own cluster's classification. -/
theorem ref_not_in_own_cluster_duplicates (s : Duplication) (df : Table)
    (pcr : Option Table) (c dupli : String) :
    (make_cluster c df pcr dupli).2 ∉ cluster_duplicate_ids s df pcr c dupli := by
  intro hmem
  simp only [cluster_duplicate_ids] at hmem
  obtain ⟨p, hp, hfst⟩ := List.mem_map.1 hmem
  have hpcm := (List.mem_filter.1 hp).1
  simp only [calculate_matching] at hpcm
  obtain ⟨q, hq, rfl⟩ := List.mem_map.1 hpcm
  simp only [matching_cluster] at hq
  obtain ⟨w, hw, rfl⟩ := List.mem_map.1 hq
  have hne := (List.mem_filter.1 hw).2
  rw [bne_iff_ne] at hne
  exact hne hfst

/-- C1 counterexample: with an explicitly empty threshold-field subset the
pipeline does not raise; it completes and returns the table unchanged
(the 0/0 NaN ratios compare false against the duplicate threshold). -/
theorem empty_threshold_no_raise_cex :
    (detect_duplicates
      ⟨some ["k"], some [], some [], mkRat 4 5, mkRat 7 10, none, fun _ _ => 0, false, none⟩
      ⟨["k","f"], [(0, ["x","a"]), (1, ["x","b"])]⟩).2 =
    some ⟨["k","f"], [(0, ["x","a"]), (1, ["x","b"])]⟩ := by
  decide

/-- C1 amended: with an empty threshold-field subset the Score Aggregator
produces the NaN ratio `0 / 0` (modelled `none`) for every compared row,
every comparison of NaN with the duplicate threshold is false, and hence
the pass classifies no row as a duplicate; no configuration error is
raised. -/
theorem empty_threshold_nan_no_flag (s : Duplication) (df : Table)
    (pcr : Option Table) (c : String) (ds : List String)
    (h : s.var_threshold = some []) :
    (∀ (mt : List (Nat × List (String × Bool))),
        calculate_matching mt [] = mt.map (fun r => (r.1, none))) ∧
    (∀ q : Option ℚ, q = none → ∀ thr : ℚ, ratioGE q thr = false) ∧
    (get_indice_duplicated s df pcr c ds).2 = [] := by
  refine ⟨calculate_matching_nil_threshold, ?_, gid_empty_threshold ds df pcr c h⟩
  intro q hq thr
  rw [hq]
  rfl

/-- C1 witness: the amended statement evaluated at the concrete
empty-subset configuration. -/
theorem empty_threshold_nan_no_flag_witness :
    (⟨some ["k"], some [], some [], mkRat 4 5, mkRat 7 10, none,
        (fun _ _ => (0:ℚ)), false, none⟩ : Duplication).var_threshold = some [] ∧
    (get_indice_duplicated
      ⟨some ["k"], some [], some [], mkRat 4 5, mkRat 7 10, none, fun _ _ => 0, false, none⟩
      ⟨["k","f"], [(0, ["x","a"]), (1, ["x","b"])]⟩ none "k" ["x"]).2 = [] := by
  refine ⟨rfl, ?_⟩
  exact (empty_threshold_nan_no_flag _
    ⟨["k","f"], [(0, ["x","a"]), (1, ["x","b"])]⟩ none "k" ["x"] rfl).2.2

/-- C5 counterexample: on an empty primary table the pipeline does not
complete; the removal-summary line `round(1 - after/before, 2)` divides by
the zero initial row count and `detect_duplicates` raises
`ZeroDivisionError` (modelled `none`). -/
theorem detect_duplicates_empty_table_cex :
    (detect_duplicates
      ⟨some ["a"], some ["a"], some [], mkRat 4 5, mkRat 7 10, none, fun _ _ => 0, false, none⟩
      ⟨["a"], []⟩).2 = none := by
  decide

/-- C5 amended: on a primary table with zero rows every blocking-key pass
is a no-op (the surviving table stays empty), but the removal-summary
computation at the end of `detect_duplicates` divides by the zero initial
row count, so the call raises `ZeroDivisionError` instead of returning the
empty table. -/
theorem detect_duplicates_empty_table_raises (s : Duplication) (t : Table)
    (h : t.rows = []) :
    (detect_duplicates s t).2 = none ∧
    ∀ (cs : List String) (s' : Duplication), ((runPasses s' t cs).2).rows = [] := by
  exact ⟨detect_duplicates_none_of_nil s t h, fun cs s' => runPasses_rows_nil cs s' t h⟩

/-- C5 witness: the amended statement evaluated at a concrete empty
table. -/
theorem detect_duplicates_empty_table_raises_witness :
    (detect_duplicates
      ⟨none, none, none, mkRat 4 5, mkRat 7 10, none, fun _ _ => 0, true, none⟩
      ⟨["patient_id"], []⟩).2 = none ∧
    ((runPasses
      ⟨none, none, none, mkRat 4 5, mkRat 7 10, none, fun _ _ => 0, true, none⟩
      ⟨["patient_id"], []⟩ ["patient_id"]).2).rows = [] := by
  have h := detect_duplicates_empty_table_raises
    ⟨none, none, none, mkRat 4 5, mkRat 7 10, none, fun _ _ => 0, true, none⟩
    ⟨["patient_id"], []⟩ rfl
  exact ⟨h.1, h.2 ["patient_id"] _⟩

/-- C4 counterexample: with an empty duplicate set nothing is removed, yet
the remaining rows come back sorted by row identifier
(`np.setdiff1d` sorts), not in their input order. -/
theorem df_deduplicate_order_cex :
    (df_deduplicate ⟨["a"], [(1, ["y"]), (0, ["x"])]⟩ []).rows = [(0, ["x"]), (1, ["y"])] ∧
    (df_deduplicate ⟨["a"], [(1, ["y"]), (0, ["x"])]⟩ []).rows ≠ [(1, ["y"]), (0, ["x"])] := by
  decide

/-- C4 amended: the Deduplicator removes exactly the rows whose
identifiers are in the duplicate set (a row survives iff it was in the
input and its identifier is not in the set), but the surviving rows are
returned sorted by row identifier ascending — the input's relative order
is preserved only when the input identifiers are already ascending. -/
theorem df_deduplicate_exact_removal_sorted (t : Table) (d : List Nat)
    (hnd : (t.rows.map (·.1)).Nodup) :
    (∀ r, r ∈ (df_deduplicate t d).rows ↔ (r ∈ t.rows ∧ r.1 ∉ d)) ∧
    ((df_deduplicate t d).rows.map (·.1)).Pairwise (· ≤ ·) :=
  ⟨fun _ => mem_df_deduplicate, df_deduplicate_sorted d hnd⟩

/-- C4 witness: the amended statement evaluated at a concrete
out-of-order table. -/
theorem df_deduplicate_exact_removal_sorted_witness :
    ((0, ["x"]) ∈ (df_deduplicate ⟨["a"], [(1, ["y"]), (0, ["x"]), (2, ["z"])]⟩ [1]).rows ↔
      ((0, ["x"]) ∈ (⟨["a"], [(1, ["y"]), (0, ["x"]), (2, ["z"])]⟩ : Table).rows ∧
        (0, (["x"] : List String)).1 ∉ [1])) ∧
    (((df_deduplicate ⟨["a"], [(1, ["y"]), (0, ["x"]), (2, ["z"])]⟩ [1]).rows.map
      (·.1)).Pairwise (· ≤ ·)) := by
  have h := df_deduplicate_exact_removal_sorted
    ⟨["a"], [(1, ["y"]), (0, ["x"]), (2, ["z"])]⟩ [1] (by decide)
  exact ⟨h.1 (0, ["x"]), h.2⟩

/-- C9: every row of a blocking-key pass's output is a row of the pass's
input with identical identifier and field values (surviving records are
never mutated), and the output row count does not exceed the input row
count. -/
theorem blockingPass_subset_and_length (s : Duplication) (t : Table) (c : String)
    (hnd : (t.rows.map (·.1)).Nodup) :
    (∀ r ∈ ((blockingPass s t c).2).rows, r ∈ t.rows) ∧
    ((blockingPass s t c).2).rows.length ≤ t.rows.length := by
  constructor
  · intro r hr
    rw [blockingPass_snd] at hr
    exact (mem_df_deduplicate.1 hr).1
  · rw [blockingPass_snd]
    exact df_deduplicate_length_le _ hnd

/-- C9 witness: a concrete pass (two identical rows, one removed) where
the surviving row is an unmodified input row and the size shrank. -/
theorem blockingPass_subset_and_length_witness :
    ((0, ["p", "v"]) ∈
      ((blockingPass
        ⟨some ["patient_id"], some ["patient_id", "f"], some [], mkRat 4 5, mkRat 7 10,
          none, fun _ _ => 0, false, none⟩
        ⟨["patient_id", "f"], [(0, ["p", "v"]), (1, ["p", "v"])]⟩ "patient_id").2).rows →
      (0, ["p", "v"]) ∈ (⟨["patient_id", "f"],
        [(0, ["p", "v"]), (1, ["p", "v"])]⟩ : Table).rows) ∧
    ((blockingPass
        ⟨some ["patient_id"], some ["patient_id", "f"], some [], mkRat 4 5, mkRat 7 10,
          none, fun _ _ => 0, false, none⟩
        ⟨["patient_id", "f"], [(0, ["p", "v"]), (1, ["p", "v"])]⟩ "patient_id").2).rows.length ≤
      (⟨["patient_id", "f"], [(0, ["p", "v"]), (1, ["p", "v"])]⟩ : Table).rows.length := by
  have h := blockingPass_subset_and_length
    ⟨some ["patient_id"], some ["patient_id", "f"], some [], mkRat 4 5, mkRat 7 10,
      none, fun _ _ => 0, false, none⟩
    ⟨["patient_id", "f"], [(0, ["p", "v"]), (1, ["p", "v"])]⟩ "patient_id" (by decide)
  exact ⟨h.1 (0, ["p", "v"]), h.2⟩

/-- C6 counterexample: two successive runs with identical configuration
are not idempotent.  The second blocking key's pass removes the row that
served as the first key's reference, so the second run finds (and
removes) a new duplicate under the first key. -/
theorem detect_duplicates_not_idempotent_cex :
    (detect_duplicates
      ⟨some ["k1", "k2"], some ["f"], some [], mkRat 4 5, mkRat 7 10,
        some ⟨["patient_id", "pcr"], [(0, ["pd", "N"])]⟩, fun _ _ => 0, false, none⟩
      ⟨["k1", "k2", "patient_id", "f"],
        [(0, ["x", "y", "pa", "v1"]), (1, ["x", "b", "pb", "v2"]),
         (2, ["x", "c", "pc", "v2"]), (3, ["d", "y", "pd", "v1"])]⟩).2 =
      some ⟨["k1", "k2", "patient_id", "f"],
        [(1, ["x", "b", "pb", "v2"]), (2, ["x", "c", "pc", "v2"]),
         (3, ["d", "y", "pd", "v1"])]⟩ ∧
    (detect_duplicates
      (detect_duplicates
        ⟨some ["k1", "k2"], some ["f"], some [], mkRat 4 5, mkRat 7 10,
          some ⟨["patient_id", "pcr"], [(0, ["pd", "N"])]⟩, fun _ _ => 0, false, none⟩
        ⟨["k1", "k2", "patient_id", "f"],
          [(0, ["x", "y", "pa", "v1"]), (1, ["x", "b", "pb", "v2"]),
           (2, ["x", "c", "pc", "v2"]), (3, ["d", "y", "pd", "v1"])]⟩).1
      ⟨["k1", "k2", "patient_id", "f"],
        [(1, ["x", "b", "pb", "v2"]), (2, ["x", "c", "pc", "v2"]),
         (3, ["d", "y", "pd", "v1"])]⟩).2 =
      some ⟨["k1", "k2", "patient_id", "f"],
        [(1, ["x", "b", "pb", "v2"]), (3, ["d", "y", "pd", "v1"])]⟩ ∧
    (⟨["k1", "k2", "patient_id", "f"],
        [(1, ["x", "b", "pb", "v2"]), (3, ["d", "y", "pd", "v1"])]⟩ : Table) ≠
      ⟨["k1", "k2", "patient_id", "f"],
        [(1, ["x", "b", "pb", "v2"]), (2, ["x", "c", "pc", "v2"]),
         (3, ["d", "y", "pd", "v1"])]⟩ := by
  refine ⟨by decide, by decide, by decide⟩

/-- C6 amended: running the pipeline twice is not idempotent in general (a
later pass can remove an earlier pass's reference record, changing the
references chosen on the second run); what does hold is monotonicity:
whenever a run returns a table, each of its rows is an unmodified row of
that run's input, so the second run only ever shrinks the first run's
output further. -/
theorem detect_duplicates_rows_monotone (s : Duplication) (t t' : Table)
    (h : (detect_duplicates s t).2 = some t') : ∀ r ∈ t'.rows, r ∈ t.rows :=
  detect_duplicates_some_subset h

/-- C6 witness: the monotonicity statement evaluated on the concrete
second run of the counterexample scenario. -/
theorem detect_duplicates_rows_monotone_witness :
    (detect_duplicates
      ⟨some ["k1", "k2"], some ["f"], some [], mkRat 4 5, mkRat 7 10,
        some ⟨["patient_id", "pcr"], [(0, ["pd", "N"])]⟩, fun _ _ => 0, false, none⟩
      ⟨["k1", "k2", "patient_id", "f"],
        [(1, ["x", "b", "pb", "v2"]), (2, ["x", "c", "pc", "v2"]),
         (3, ["d", "y", "pd", "v1"])]⟩).2 =
      some ⟨["k1", "k2", "patient_id", "f"],
        [(1, ["x", "b", "pb", "v2"]), (3, ["d", "y", "pd", "v1"])]⟩ ∧
    (1, ["x", "b", "pb", "v2"]) ∈
      (⟨["k1", "k2", "patient_id", "f"],
        [(1, ["x", "b", "pb", "v2"]), (2, ["x", "c", "pc", "v2"]),
         (3, ["d", "y", "pd", "v1"])]⟩ : Table).rows := by
  refine ⟨by decide, ?_⟩
  exact detect_duplicates_rows_monotone
    ⟨some ["k1", "k2"], some ["f"], some [], mkRat 4 5, mkRat 7 10,
      some ⟨["patient_id", "pcr"], [(0, ["pd", "N"])]⟩, fun _ _ => 0, false, none⟩
    ⟨["k1", "k2", "patient_id", "f"],
      [(1, ["x", "b", "pb", "v2"]), (2, ["x", "c", "pc", "v2"]),
       (3, ["d", "y", "pd", "v1"])]⟩
    ⟨["k1", "k2", "patient_id", "f"],
      [(1, ["x", "b", "pb", "v2"]), (3, ["d", "y", "pd", "v1"])]⟩
    (by decide) (1, ["x", "b", "pb", "v2"]) (by decide)

/-- C3 counterexample: on two identical rows sharing one `patient_id`, an
ordinary blocking-key pass keyed on `patient_id` keeps the reference row,
while the final entity-identifier pass (`duplicated(False)` marks all
occurrences) removes both rows — the two are not the same operation. -/
theorem final_pi_pass_not_pipeline_cex :
    ((blockingPass
      ⟨some ["patient_id"], some ["patient_id", "f"], some [], mkRat 4 5, mkRat 7 10,
        none, fun _ _ => 0, false, none⟩
      ⟨["patient_id", "f"], [(0, ["p", "v"]), (1, ["p", "v"])]⟩ "patient_id").2).rows =
      [(0, ["p", "v"])] ∧
    (finalPiPass ⟨["patient_id", "f"], [(0, ["p", "v"]), (1, ["p", "v"])]⟩).rows = [] ∧
    finalPiPass ⟨["patient_id", "f"], [(0, ["p", "v"]), (1, ["p", "v"])]⟩ ≠
      (blockingPass
        ⟨some ["patient_id"], some ["patient_id", "f"], some [], mkRat 4 5, mkRat 7 10,
          none, fun _ _ => 0, false, none⟩
        ⟨["patient_id", "f"], [(0, ["p", "v"]), (1, ["p", "v"])]⟩ "patient_id").2 := by
  refine ⟨by decide, by decide, by decide⟩

/-- C3 amended: the final entity-identifier pass is not an ordinary
blocking-key pass; it removes every row whose `patient_id` occurs more
than once, the would-be reference record included: every surviving row is
an input row whose `patient_id` value occurred exactly once in the input,
so no cluster of duplicated identifiers keeps a reference record. -/
theorem finalPiPass_removes_every_duplicated_pid (t : Table) (r : Nat × List String)
    (hr : r ∈ (finalPiPass t).rows) :
    r ∈ t.rows ∧
    (colValues t "patient_id").count (getVal t.cols r.2 "patient_id") = 1 := by
  have h1 := mem_df_deduplicate.1 hr
  refine ⟨h1.1, ?_⟩
  have hmemv : getVal t.cols r.2 "patient_id" ∈ colValues t "patient_id" := by
    simp only [colValues]
    exact List.mem_map_of_mem _ h1.1
  have hge : 1 ≤ (colValues t "patient_id").count (getVal t.cols r.2 "patient_id") :=
    List.count_pos_iff.2 hmemv
  by_contra hne
  have h2 : 2 ≤ (colValues t "patient_id").count (getVal t.cols r.2 "patient_id") := by
    omega
  apply h1.2
  simp only [duplicated_pid_index]
  refine List.mem_map_of_mem _ (List.mem_filter.2 ⟨h1.1, ?_⟩)
  simpa using h2

/-- C3 witness: the amended statement evaluated at a concrete table whose
final pass leaves only the row with a unique identifier. -/
theorem finalPiPass_removes_every_duplicated_pid_witness :
    (2, ["q", "w"]) ∈
      (⟨["patient_id", "f"], [(0, ["p", "v"]), (1, ["p", "v"]), (2, ["q", "w"])]⟩ :
        Table).rows ∧
    (colValues ⟨["patient_id", "f"], [(0, ["p", "v"]), (1, ["p", "v"]), (2, ["q", "w"])]⟩
        "patient_id").count
      (getVal ["patient_id", "f"] ["q", "w"] "patient_id") = 1 := by
  exact finalPiPass_removes_every_duplicated_pid
    ⟨["patient_id", "f"], [(0, ["p", "v"]), (1, ["p", "v"]), (2, ["q", "w"])]⟩
    (2, ["q", "w"]) (by decide)

/-- C10 counterexample: configuration state resolved during one invocation
leaks into the next invocation on a different table.  With
`var_threshold` unset, a first run on a one-column table fixes
`var_threshold` to that table's columns on `self`; a second run on a
two-column table then removes a row that an identically configured fresh
object would keep. -/
theorem config_leak_across_invocations_cex :
    (detect_duplicates
      ⟨some ["a"], none, some [], mkRat 4 5, mkRat 7 10, none, fun _ _ => 0, false, none⟩
      ⟨["a"], [(0, ["x"]), (1, ["x"])]⟩).1.var_threshold = some ["a"] ∧
    (detect_duplicates
      (detect_duplicates
        ⟨some ["a"], none, some [], mkRat 4 5, mkRat 7 10, none, fun _ _ => 0, false, none⟩
        ⟨["a"], [(0, ["x"]), (1, ["x"])]⟩).1
      ⟨["a", "b"], [(0, ["x", "1"]), (1, ["x", "2"])]⟩).2 =
      some ⟨["a", "b"], [(0, ["x", "1"])]⟩ ∧
    (detect_duplicates
      ⟨some ["a"], none, some [], mkRat 4 5, mkRat 7 10, none, fun _ _ => 0, false, none⟩
      ⟨["a", "b"], [(0, ["x", "1"]), (1, ["x", "2"])]⟩).2 =
      some ⟨["a", "b"], [(0, ["x", "1"]), (1, ["x", "2"])]⟩ := by
  refine ⟨by decide, by decide, by decide⟩

/-- C10 amended: unset column subsets are not resolved once at pipeline
start into immutable configuration.  `var_threshold` (and likewise
`var_similarity`) stays unset through a pass that processes no cluster, is
assigned inside the per-cluster loop from the current table's columns on
the first cluster processed, and once set persists on the object through
the whole invocation — so it leaks into later passes and later
invocations on other tables. -/
theorem config_lazy_resolution_and_persistence (s : Duplication) (t df : Table)
    (pcr : Option Table) (c : String) :
    (∀ v, s.var_threshold = some v → (detect_duplicates s t).1.var_threshold = some v) ∧
    (get_indice_duplicated s df pcr c [] = (s, [])) ∧
    (∀ d ds, s.var_threshold = none →
      (get_indice_duplicated s df pcr c (d :: ds)).1.var_threshold = some df.cols) := by
  refine ⟨fun v hv => detect_var_threshold_some t hv, rfl, ?_⟩
  intro d ds h
  exact gid_var_threshold_assigned d ds df pcr c h

/-- C10 witness: the amended statement evaluated at concrete states — a
set subset persists through a whole run, an empty cluster list leaves the
state untouched, and one processed cluster fixes the subset to the current
table's columns. -/
theorem config_lazy_resolution_and_persistence_witness :
    (detect_duplicates
      ⟨some ["a"], some ["a"], some [], mkRat 4 5, mkRat 7 10, none, fun _ _ => 0, false, none⟩
      ⟨["a", "b"], [(0, ["x", "1"]), (1, ["x", "2"])]⟩).1.var_threshold = some ["a"] ∧
    get_indice_duplicated
      ⟨some ["a"], none, some [], mkRat 4 5, mkRat 7 10, none, fun _ _ => 0, false, none⟩
      ⟨["a"], [(0, ["x"]), (1, ["x"])]⟩ none "a" [] =
      (⟨some ["a"], none, some [], mkRat 4 5, mkRat 7 10, none, fun _ _ => 0, false, none⟩,
        []) ∧
    (get_indice_duplicated
      ⟨some ["a"], none, some [], mkRat 4 5, mkRat 7 10, none, fun _ _ => 0, false, none⟩
      ⟨["a"], [(0, ["x"]), (1, ["x"])]⟩ none "a" ["x"]).1.var_threshold =
      some (⟨["a"], [(0, ["x"]), (1, ["x"])]⟩ : Table).cols := by
  have h := config_lazy_resolution_and_persistence
    ⟨some ["a"], none, some [], mkRat 4 5, mkRat 7 10, none, fun _ _ => 0, false, none⟩
    ⟨["a", "b"], [(0, ["x", "1"]), (1, ["x", "2"])]⟩
    ⟨["a"], [(0, ["x"]), (1, ["x"])]⟩ none "a"
  have h' := config_lazy_resolution_and_persistence
    ⟨some ["a"], some ["a"], some [], mkRat 4 5, mkRat 7 10, none, fun _ _ => 0, false, none⟩
    ⟨["a", "b"], [(0, ["x", "1"]), (1, ["x", "2"])]⟩
    ⟨["a"], [(0, ["x"]), (1, ["x"])]⟩ none "a"
  exact ⟨h'.1 ["a"] rfl, h.2.1, h.2.2 "x" [] rfl⟩

/-- C8: for every cluster, non-reference row and column, the Matcher's
boolean is true iff, when the column is a similarity field, the metric
applied to the row's and the reference's values strictly exceeds the
confidence threshold, and otherwise iff the two raw values are exactly
equal (the empty string compares equal to the empty string through the
same equality). -/
theorem matching_cluster_cell_spec (cluster : Table) (ref_index : Nat)
    (var_similarity : List String) (metric : String → String → ℚ) (confidence : ℚ)
    (r : Nat × List String) (hr : r ∈ cluster.rows) (hne : r.1 ≠ ref_index)
    (c : String) (hc : c ∈ cluster.cols) :
    ∃ entry ∈ matching_cluster cluster ref_index var_similarity metric confidence,
      entry.1 = r.1 ∧ ∃ b : Bool, (c, b) ∈ entry.2 ∧
        (b = true ↔
          (if c ∈ var_similarity then
            confidence < metric (getVal cluster.cols r.2 c)
              (getVal cluster.cols (refCells cluster ref_index) c)
          else
            getVal cluster.cols r.2 c =
              getVal cluster.cols (refCells cluster ref_index) c)) := by
  simp only [matching_cluster]
  refine ⟨_, List.mem_map_of_mem _
    (List.mem_filter.2 ⟨hr, by simpa [bne_iff_ne] using hne⟩), rfl, ?_⟩
  refine ⟨_, List.mem_map_of_mem _ hc, ?_⟩
  by_cases hcs : c ∈ var_similarity
  · simp only [if_pos hcs]
    exact decide_eq_true_iff
  · simp only [if_neg hcs]
    exact beq_iff_eq

/-- C8 witness: the matcher-cell characterisation evaluated on a concrete
two-row cluster with one similarity field and one exact field (one of
whose values is the empty string on both rows). -/
theorem matching_cluster_cell_spec_witness :
    ∃ entry ∈ matching_cluster ⟨["s", "e"], [(0, ["ab", ""]), (1, ["ac", ""])]⟩ 0 ["s"]
        (fun _ _ => mkRat 9 10) (mkRat 4 5),
      entry.1 = (1, (["ac", ""] : List String)).1 ∧ ∃ b : Bool, ("e", b) ∈ entry.2 ∧
        (b = true ↔
          (if ("e" : String) ∈ (["s"] : List String) then
            mkRat 4 5 < (fun _ _ => mkRat 9 10) (getVal ["s", "e"] ["ac", ""] "e")
              (getVal ["s", "e"]
                (refCells ⟨["s", "e"], [(0, ["ab", ""]), (1, ["ac", ""])]⟩ 0) "e")
          else
            getVal ["s", "e"] ["ac", ""] "e" =
              getVal ["s", "e"]
                (refCells ⟨["s", "e"], [(0, ["ab", ""]), (1, ["ac", ""])]⟩ 0) "e")) := by
  exact matching_cluster_cell_spec ⟨["s", "e"], [(0, ["ab", ""]), (1, ["ac", ""])]⟩ 0 ["s"]
    (fun _ _ => mkRat 9 10) (mkRat 4 5) (1, ["ac", ""]) (by decide) (by decide) "e"
    (by decide)

theorem filter_map_fst (p : Nat → Bool) (l : List (Nat × List String)) :
    (l.map (·.1)).filter p = (l.filter (fun r => p r.1)).map (·.1) := by
  induction l with
  | nil => rfl
  | cons a as ih => by_cases h : p a.1 <;> simp [List.filter_cons, h, ih]

theorem filter_filter_bool {α : Type} (p q : α → Bool) (l : List α) :
    (l.filter p).filter q = l.filter (fun a => p a && q a) := by
  induction l with
  | nil => rfl
  | cons a as ih =>
    by_cases hp : p a <;> by_cases hq : q a <;>
      simp [List.filter_cons, hp, hq, ih]

theorem headD_map_fst (l : List (Nat × List String)) :
    (l.map (·.1)).headD 0 = (l.head?.map (·.1)).getD 0 := by
  cases l <;> rfl

/-- C2 counterexample: two cluster rows both linked and both positive,
with the Auxiliary Table listing the second cluster row's entity first.
The spec's rule (first linked-and-positive entity in Auxiliary-Table
order) picks row 1, but `__make_cluster__` picks row 0: `__get_positive__`
collects the positive rows in primary-table order, not pcr order. -/
theorem reference_selector_aux_order_cex :
    (make_cluster "k" ⟨["k", "patient_id"], [(0, ["x", "pa"]), (1, ["x", "pb"])]⟩
      (some ⟨["patient_id", "pcr"], [(10, ["pb", "P"]), (11, ["pa", "P"])]⟩) "x").2 = 0 ∧
    aux_order_positive_ref
      (cluster_of "k" ⟨["k", "patient_id"], [(0, ["x", "pa"]), (1, ["x", "pb"])]⟩ "x")
      ⟨["patient_id", "pcr"], [(10, ["pb", "P"]), (11, ["pa", "P"])]⟩ = some 1 ∧
    (0 : Nat) ≠ 1 := by
  refine ⟨by decide, by decide, by decide⟩

/-- C2 amended: with two or more linked cluster rows and at least one
positive linked entity, the Reference Selector picks the identifier of the
first row in primary-table (hence cluster) order that is both linked and
carries a positive `patient_id` — not the first such entity in
Auxiliary-Table order. -/
theorem make_cluster_positive_primary_order (c dupli : String) (df dfp : Table)
    (i j : Nat) (rest : List Nat)
    (ht : tested_ids (cluster_of c df dupli) dfp = i :: j :: rest)
    (hp : (find_positive (tested_ids (cluster_of c df dupli) dfp) dfp df).any (·.2) = true) :
    (make_cluster c df (some dfp) dupli).2 =
      ((df.rows.filter (fun r =>
          decide (getVal df.cols r.2 "patient_id" ∈
            positive_pids dfp
              (find_positive (tested_ids (cluster_of c df dupli) dfp) dfp df)) &&
          decide (r.1 ∈ tested_ids (cluster_of c df dupli) dfp))).head?.map (·.1)).getD
        0 := by
  rw [ht] at hp ⊢
  simp only [make_cluster, ht, hp, if_true, get_positive]
  rw [filter_map_fst, filter_filter_bool, headD_map_fst]

/-- C2 witness: the amended statement evaluated at the counterexample
input, where the first linked-and-positive row in primary order is row
0. -/
theorem make_cluster_positive_primary_order_witness :
    tested_ids
      (cluster_of "k" ⟨["k", "patient_id"], [(0, ["x", "pa"]), (1, ["x", "pb"])]⟩ "x")
      ⟨["patient_id", "pcr"], [(10, ["pb", "P"]), (11, ["pa", "P"])]⟩ = [0, 1] ∧
    (make_cluster "k" ⟨["k", "patient_id"], [(0, ["x", "pa"]), (1, ["x", "pb"])]⟩
      (some ⟨["patient_id", "pcr"], [(10, ["pb", "P"]), (11, ["pa", "P"])]⟩) "x").2 =
      (((⟨["k", "patient_id"], [(0, ["x", "pa"]), (1, ["x", "pb"])]⟩ : Table).rows.filter
        (fun r =>
          decide (getVal ["k", "patient_id"] r.2 "patient_id" ∈
            positive_pids ⟨["patient_id", "pcr"], [(10, ["pb", "P"]), (11, ["pa", "P"])]⟩
              (find_positive
                (tested_ids
                  (cluster_of "k"
                    ⟨["k", "patient_id"], [(0, ["x", "pa"]), (1, ["x", "pb"])]⟩ "x")
                  ⟨["patient_id", "pcr"], [(10, ["pb", "P"]), (11, ["pa", "P"])]⟩)
                ⟨["patient_id", "pcr"], [(10, ["pb", "P"]), (11, ["pa", "P"])]⟩
                ⟨["k", "patient_id"], [(0, ["x", "pa"]), (1, ["x", "pb"])]⟩)) &&
          decide (r.1 ∈ tested_ids
            (cluster_of "k" ⟨["k", "patient_id"], [(0, ["x", "pa"]), (1, ["x", "pb"])]⟩
              "x")
            ⟨["patient_id", "pcr"], [(10, ["pb", "P"]), (11, ["pa", "P"])]⟩))).head?.map
        (·.1)).getD 0 := by
  refine ⟨by decide, ?_⟩
  exact make_cluster_positive_primary_order "k" "x"
    ⟨["k", "patient_id"], [(0, ["x", "pa"]), (1, ["x", "pb"])]⟩
    ⟨["patient_id", "pcr"], [(10, ["pb", "P"]), (11, ["pa", "P"])]⟩
    0 1 [] (by decide) (by decide)
